import Mathlib

/-!
Shallow embedding of `src/backend/src/workers/grib_processor.py`: a pipeline
that converts a decoded meteorological grid into a JSON payload (orientation
normalisation, bounds/resolution extraction, missing-value normalisation,
longitude wrapping, int16 fixed-point quantisation with base64 encoding).

Floating-point sample values are modelled as exact rationals; the IEEE NaN
used by the source for "no data" is modelled as `none` in `Option ℚ`
(NaN compares unequal to and not-below everything, which matches the
`Option` case split used here).
-/

namespace GribProcessor

/-- A coordinate axis: either a 1-D array (regular axis) or a 2-D array
(curvilinear axis), mirroring the `ndim`-based branching of the source. -/
inductive Axis where
  | oneD (vals : List ℚ)
  | twoD (vals : List (List ℚ))
deriving DecidableEq, Repr

/-- A 2-D grid of samples, row-major; `none` models NaN / "no data". -/
abbrev Grid := List (List (Option ℚ))

/-- `np.flipud`: reverse the first (row) dimension. -/
def flipud {α : Type} (l : List α) : List α := l.reverse

/-- `np.flipud` applied to an axis array (reverses a 1-D array, reverses the
rows of a 2-D array). -/
def flipudAxis : Axis → Axis
  | .oneD l => .oneD (flipud l)
  | .twoD g => .twoD (flipud g)

/-- `latitudes[0, 0]` when 2-D else `latitudes[0]` (`None` when the source
would raise `IndexError`). -/
def firstSample : Axis → Option ℚ
  | .oneD l => l.head?
  | .twoD g => g.head? >>= List.head?

/-- `latitudes[-1, 0]` when 2-D else `latitudes[-1]`. -/
def lastSample : Axis → Option ℚ
  | .oneD l => l.getLast?
  | .twoD g => g.getLast? >>= List.head?

/-- `ensure_orientation`: flip the data vertically if the latitude increases
from the first to the last row. -/
def ensure_orientation (latitudes : Axis) (values : Grid) :
    Axis × Grid × Bool :=
  match firstSample latitudes, lastSample latitudes with
  | some first_lat, some last_lat =>
    if first_lat < last_lat then (flipudAxis latitudes, flipud values, true)
    else (latitudes, values, false)
  | _, _ => (latitudes, values, false)

/-- `longitudes[0, 0]` when 2-D else `longitudes[0]`. -/
def firstLonSample : Axis → Option ℚ
  | .oneD l => l.head?
  | .twoD g => g.head? >>= List.head?

/-- `longitudes[0, -1]` when 2-D else `longitudes[-1]`. -/
def lastLonSample : Axis → Option ℚ
  | .oneD l => l.getLast?
  | .twoD g => g.head? >>= List.getLast?

/-- `extract_bounds`: first/last latitude sample (first column when 2-D) and
first/last longitude sample (first row when 2-D), each pair then sorted.
`none` models the `IndexError` the source raises on an empty axis. -/
def extract_bounds (latitudes longitudes : Axis) :
    Option (ℚ × ℚ × ℚ × ℚ) :=
  match firstSample latitudes, lastSample latitudes,
      firstLonSample longitudes, lastLonSample longitudes with
  | some north, some south, some west, some east =>
    some (min south north, min west east, max south north, max west east)
  | _, _, _, _ => none

/-- `compute_step`: `0.0` for fewer than two samples, otherwise
`abs (values[1] - values[0])`. -/
def compute_step (values : List ℚ) : ℚ :=
  if values.length < 2 then 0
  else |values.getD 1 0 - values.getD 0 0|

/-- `latitudes[:, 0]` when 2-D else the axis itself. -/
def latVector : Axis → List ℚ
  | .oneD l => l
  | .twoD g => g.map (fun row => row.headD 0)

/-- `longitudes[0, :]` when 2-D else the axis itself. -/
def lonVector : Axis → List ℚ
  | .oneD l => l
  | .twoD g => g.headD []

/-- `extract_resolution`. -/
def extract_resolution (latitudes longitudes : Axis) : ℚ × ℚ :=
  (compute_step (latVector latitudes), compute_step (lonVector longitudes))

/-- One sample of `normalise_values`: samples equal to the missing-value
indicator become NaN, then samples `≤ -100` become NaN. -/
def normaliseSample (missing_value : Option ℚ) : Option ℚ → Option ℚ
  | none => none
  | some v =>
    match missing_value with
    | some m => if v = m then none else if v ≤ -100 then none else some v
    | none => if v ≤ -100 then none else some v

/-- `normalise_values` (the `float32` cast does not change the model's exact
values). -/
def normalise_values (values : Grid) (missing_value : Option ℚ) : Grid :=
  values.map (fun row => row.map (normaliseSample missing_value))

/-- `np.rint`: round to nearest integer, ties to even. -/
def rint (q : ℚ) : ℤ :=
  let f : ℤ := ⌊q⌋
  let r : ℚ := q - f
  if r < 1/2 then f
  else if 1/2 < r then f + 1
  else if f % 2 = 0 then f else f + 1

/-- `astype(np.int16)`: wrap an integer into the signed 16-bit range. -/
def toInt16 (n : ℤ) : ℤ := (n + 32768) % 65536 - 32768

/-- The reserved sentinel for "no data" in the encoded buffer. -/
def missingSentinel : ℤ := -32768

/-- One sample of `encode_values`: NaN maps to the missing sentinel, a finite
value is scaled by 10, rounded to nearest and cast to int16. -/
def encodeSample : Option ℚ → ℤ
  | none => missingSentinel
  | some v => toInt16 (rint (v * 10))

/-- The scaled int16 grid produced inside `encode_values`. -/
def scaledGrid (values : Grid) : List (List ℤ) :=
  values.map (fun row => row.map encodeSample)

/-- The decode recipe: `value = (raw * scale) + offset`, `missing` marks
"no data". -/
structure Encoding where
  format : String
  scale : ℚ
  offset : ℚ
  missing : ℤ
  description : String
deriving DecidableEq, Repr

/-- The encoding dictionary built by `encode_values`. -/
def gridEncoding : Encoding :=
  { format := "int16"
    scale := 1 / 10
    offset := 0
    missing := missingSentinel
    description := "value = (raw * scale) + offset; missing indicates no data" }

/-- Decoding one raw int16 per the `Encoding` recipe: the missing sentinel is
"no data", anything else is `raw * scale + offset`. -/
def decodeSample (raw : ℤ) : Option ℚ :=
  if raw = gridEncoding.missing then none
  else some ((raw : ℚ) * gridEncoding.scale + gridEncoding.offset)

/-- `wrap_longitudes` on one value: values above `180.0` drop by `360.0`. -/
def wrapLon (v : ℚ) : ℚ := if v > 180 then v - 360 else v

/-- `wrap_longitudes` (the axis is numeric in this model, so the numeric-dtype
branch always applies). -/
def wrap_longitudes : Axis → Axis
  | .oneD l => .oneD (l.map wrapLon)
  | .twoD g => .twoD (g.map (fun row => row.map wrapLon))

/-- All values of an axis, flattened. -/
def axisValues : Axis → List ℚ
  | .oneD l => l
  | .twoD g => g.flatten

/-! ### Byte serialisation and base64 (`scaled.tobytes()` / `base64.b64encode`) -/

/-- `tobytes` of one int16: two bytes, little-endian (x86 native order). -/
def int16ToBytes (n : ℤ) : List ℕ :=
  let u : ℕ := (n % 65536).toNat
  [u % 256, u / 256]

/-- `scaled.tobytes()`: the row-major byte buffer of the int16 grid. -/
def gridBytes (scaled : List (List ℤ)) : List ℕ :=
  scaled.flatten.flatMap int16ToBytes

/-- The standard base64 alphabet. -/
def b64Alphabet : List Char :=
  ['A','B','C','D','E','F','G','H','I','J','K','L','M','N','O','P',
   'Q','R','S','T','U','V','W','X','Y','Z',
   'a','b','c','d','e','f','g','h','i','j','k','l','m','n','o','p',
   'q','r','s','t','u','v','w','x','y','z',
   '0','1','2','3','4','5','6','7','8','9','+','/']

/-- Base64 digit for a 6-bit value. -/
def encB64Char (n : ℕ) : Char := b64Alphabet.getD n '?'

/-- Index of a base64 digit in the alphabet. -/
def decB64Char (c : Char) : Option ℕ := b64Alphabet.findIdx? (fun d => d = c)

/-- `base64.b64encode`: standard base64 with `=` padding. -/
def encodeB64 : List ℕ → List Char
  | [] => []
  | [a] => [encB64Char (a / 4), encB64Char (a % 4 * 16), '=', '=']
  | [a, b] =>
    [encB64Char (a / 4), encB64Char (a % 4 * 16 + b / 16),
     encB64Char (b % 16 * 4), '=']
  | a :: b :: c :: rest =>
    encB64Char (a / 4) :: encB64Char (a % 4 * 16 + b / 16) ::
      encB64Char (b % 16 * 4 + c / 64) :: encB64Char (c % 64) ::
      encodeB64 rest

/-- Standard base64 decoding; `none` on malformed input. -/
def decodeB64 : List Char → Option (List ℕ)
  | [] => some []
  | w :: x :: y :: z :: rest =>
    if y = '=' then
      if z = '=' ∧ rest = [] then
        match decB64Char w, decB64Char x with
        | some a, some b => some [a * 4 + b / 16]
        | _, _ => none
      else none
    else if z = '=' then
      if rest = [] then
        match decB64Char w, decB64Char x, decB64Char y with
        | some a, some b, some c =>
          some [a * 4 + b / 16, b % 16 * 16 + c / 4]
        | _, _, _ => none
      else none
    else
      match decB64Char w, decB64Char x, decB64Char y, decB64Char z with
      | some a, some b, some c, some d =>
        (decodeB64 rest).map
          (fun tail => (a * 4 + b / 16) :: (b % 16 * 16 + c / 4) ::
            (c % 4 * 64 + d) :: tail)
      | _, _, _, _ => none
  | _ => none

/-- `encode_values`: the base64 text of the scaled int16 buffer, plus the
decode recipe. -/
def encode_values (values : Grid) : List Char × Encoding :=
  (encodeB64 (gridBytes (scaledGrid values)), gridEncoding)

/-! ### The dataset boundary and the orchestrator (`process_grib`) -/

/-- A data variable of the decoded dataset: its sample grid and the optional
`missing_value` / `_FillValue` attributes. -/
structure Variable where
  values : Grid
  missing_value : Option ℚ
  fillValue : Option ℚ
deriving DecidableEq, Repr

/-- `detect_missing_value`: the `missing_value` attribute, else `_FillValue`,
else none. -/
def detect_missing_value (v : Variable) : Option ℚ :=
  v.missing_value.orElse (fun _ => v.fillValue)

/-- The decoded dataset consumed by the orchestrator. The time coordinate is
abstracted to the already-formatted optional timestamp (the claims under
verification do not touch `format_timestamp`). -/
structure Dataset where
  data_vars : List Variable
  latitude : Axis
  longitude : Axis
  time : Option String
deriving DecidableEq, Repr

/-- The errors `process_grib` can raise: `RuntimeError` for a dataset with no
data variables, `IndexError` for an empty coordinate axis. -/
inductive ProcError where
  | noDataVariable
  | indexError
deriving DecidableEq, Repr

/-- The non-NaN samples of a grid (the values `np.nanmin`/`np.nanmax`
aggregate over). -/
def dataSamples (g : Grid) : List ℚ := g.flatten.filterMap id

/-- `float(np.nanmin(values))` guarded by `try/except` and `math.isfinite`:
`none` when the grid has no non-NaN sample. -/
def nanMin (g : Grid) : Option ℚ :=
  match dataSamples g with
  | [] => none
  | x :: xs => some (xs.foldl min x)

/-- `float(np.nanmax(values))` guarded by `try/except` and `math.isfinite`. -/
def nanMax (g : Grid) : Option ℚ :=
  match dataSamples g with
  | [] => none
  | x :: xs => some (xs.foldl max x)

/-- The output payload record. -/
structure Payload where
  rows : ℕ
  cols : ℕ
  bounds : ℚ × ℚ × ℚ × ℚ
  latStep : ℚ
  lonStep : ℚ
  timestamp : Option String
  minValue : Option ℚ
  maxValue : Option ℚ
  origin : String
  dataEncoding : Encoding
  data : List Char
deriving DecidableEq, Repr

/-- The normalised grid flowing into `encode_values` and the min/max
aggregation: the first variable's samples, vertically flipped when the
orientation normaliser flips, with missing values mapped to NaN. -/
def normalisedGrid (ds : Dataset) : Grid :=
  match ds.data_vars with
  | [] => []
  | v :: _ =>
    normalise_values (ensure_orientation ds.latitude v.values).2.1
      (detect_missing_value v)

/-- `process_grib`: the single-pass orchestrator. -/
def process_grib (ds : Dataset) : Except ProcError Payload :=
  match ds.data_vars with
  | [] => .error .noDataVariable
  | v :: _ =>
    let longitudes0 := wrap_longitudes ds.longitude
    let oriented := ensure_orientation ds.latitude v.values
    let latitudes := oriented.1
    let flipped := oriented.2.2
    let longitudes := if flipped then flipudAxis longitudes0 else longitudes0
    let values := normalise_values oriented.2.1 (detect_missing_value v)
    let encoded := encode_values values
    let rows := values.length
    let cols := (values.headD []).length
    match extract_bounds latitudes longitudes with
    | none => .error .indexError
    | some (south, west, north, east) =>
      let steps := extract_resolution latitudes longitudes
      .ok
        { rows := rows
          cols := cols
          bounds := (south, west, north, east)
          latStep := steps.1
          lonStep := steps.2
          timestamp := ds.time
          minValue := nanMin values
          maxValue := nanMax values
          origin := "upper-left"
          dataEncoding := encoded.2
          data := encoded.1 }

/-- `main` prints the JSON payload only after `process_grib` returns
successfully: the payload the process emits, `none` when the run fails. -/
def emittedPayload (ds : Dataset) : Option Payload :=
  (process_grib ds).toOption

/-- The longitude axis the orchestrator derives for the first variable:
wrapped, then vertically flipped when the orientation normaliser flipped. -/
def orientedLongitudes (ds : Dataset) (v : Variable) : Axis :=
  if (ensure_orientation ds.latitude v.values).2.2
  then flipudAxis (wrap_longitudes ds.longitude)
  else wrap_longitudes ds.longitude

/-- A concrete 1×1 dataset used to instantiate hypothesis-bearing theorems. -/
def sampleDataset : Dataset :=
  { data_vars :=
      [{ values := [[some 1]], missing_value := none, fillValue := none }]
    latitude := .oneD [10]
    longitude := .oneD [20]
    time := none }

/-- The payload `process_grib` produces on `sampleDataset`. -/
def samplePayload : Payload :=
  { rows := 1
    cols := 1
    bounds := (10, 20, 10, 20)
    latStep := 0
    lonStep := 0
    timestamp := none
    minValue := some 1
    maxValue := some 1
    origin := "upper-left"
    dataEncoding := gridEncoding
    data := ['C', 'g', 'A', '='] }

/-- A dataset declaring no data variables. -/
def emptyDataset : Dataset :=
  { data_vars := [], latitude := .oneD [10], longitude := .oneD [20],
    time := none }

/-- `grid[i][j]`, `none` when out of range. -/
def getSample {α : Type} (g : List (List α)) (i j : ℕ) : Option α :=
  g[i]? >>= fun row => row[j]?

/-! ### Helper lemmas -/

theorem rint_sub_abs_le (q : ℚ) : |(rint q : ℚ) - q| ≤ 1 / 2 := by
  have h1 : ((⌊q⌋ : ℤ) : ℚ) ≤ q := Int.floor_le q
  have h2 : q < ((⌊q⌋ : ℤ) : ℚ) + 1 := Int.lt_floor_add_one q
  rw [abs_le]
  simp only [rint]
  split_ifs <;> push_cast <;> constructor <;> linarith

theorem toInt16_eq_self {n : ℤ} (h1 : -32768 ≤ n) (h2 : n ≤ 32767) :
    toInt16 n = n := by
  unfold toInt16
  omega

/-! ### Claim theorems -/

/-- Claim C3: for every pair of latitude/longitude axes (1-D or 2-D, any
direction), the extracted bounds tuple `(south, west, north, east)` satisfies
`south ≤ north` and `west ≤ east`, because each pair is reordered after the
first/last samples are taken. -/
theorem bounds_ordering (latitudes longitudes : Axis) (s w n e : ℚ)
    (h : extract_bounds latitudes longitudes = some (s, w, n, e)) :
    s ≤ n ∧ w ≤ e := by
  rcases h1 : firstSample latitudes with _ | north <;>
    rcases h2 : lastSample latitudes with _ | south <;>
      rcases h3 : firstLonSample longitudes with _ | west' <;>
        rcases h4 : lastLonSample longitudes with _ | east' <;>
          simp [extract_bounds, h1, h2, h3, h4] at h
  obtain ⟨hs, hw, hn, he⟩ := h
  exact ⟨hs ▸ hn ▸ min_le_max, hw ▸ he ▸ min_le_max⟩

/-- Witness for C3 at a concrete pair of axes. -/
theorem bounds_ordering_witness :
    (10 : ℚ) ≤ 10 ∧ (20 : ℚ) ≤ 20 :=
  bounds_ordering (.oneD [10]) (.oneD [20]) 10 20 10 20
    (by norm_num [extract_bounds, firstSample, lastSample, firstLonSample,
      lastLonSample])

/-- Claim C7: each axis step is the absolute difference of the first two
samples of that axis's vector (first column of a 2-D latitude axis, first row
of a 2-D longitude axis), `0.0` when the vector has fewer than two samples;
in particular single-sample axes give `latStep = 0` and `lonStep = 0`. -/
theorem resolution_step :
    (∀ l : List ℚ, l.length < 2 → compute_step l = 0)
    ∧ (∀ (a b : ℚ) (rest : List ℚ), compute_step (a :: b :: rest) = |b - a|)
    ∧ (∀ latitudes longitudes : Axis,
        extract_resolution latitudes longitudes =
          (compute_step (latVector latitudes),
            compute_step (lonVector longitudes)))
    ∧ (∀ x y : ℚ, extract_resolution (.oneD [x]) (.oneD [y]) = (0, 0)) := by
  refine ⟨?_, ?_, fun _ _ => rfl, fun _ _ => rfl⟩
  · intro l h
    simp [compute_step, h]
  · intro a b rest
    simp [compute_step]

/-- Witness for C7 at concrete vectors. -/
theorem resolution_step_witness :
    compute_step [(5 : ℚ)] = 0 ∧ compute_step [(1 : ℚ), 3] = |3 - 1| :=
  ⟨resolution_step.1 [5] (by decide), resolution_step.2.1 1 3 []⟩

theorem firstSample_flipudAxis (a : Axis) :
    firstSample (flipudAxis a) = lastSample a := by
  cases a <;> simp [firstSample, lastSample, flipudAxis, flipud]

theorem lastSample_flipudAxis (a : Axis) :
    lastSample (flipudAxis a) = firstSample a := by
  cases a <;> simp [firstSample, lastSample, flipudAxis, flipud]

/-- Claim C5: the orientation normaliser flips the latitude axis and the grid
(and reports `true`) exactly when the first latitude sample is strictly below
the last one; a single-row axis is never flipped; only the first and last
samples influence the decision. -/
theorem orientation_decision :
    (∀ (latitudes : Axis) (values : Grid) (a b : ℚ),
        firstSample latitudes = some a → lastSample latitudes = some b →
        ensure_orientation latitudes values =
          if a < b then (flipudAxis latitudes, flipud values, true)
          else (latitudes, values, false))
    ∧ (∀ (x : ℚ) (values : Grid),
        ensure_orientation (.oneD [x]) values = (.oneD [x], values, false))
    ∧ (∀ (row : List ℚ) (values : Grid),
        ensure_orientation (.twoD [row]) values = (.twoD [row], values, false))
    ∧ (∀ (latitudes latitudes' : Axis) (values : Grid),
        firstSample latitudes = firstSample latitudes' →
        lastSample latitudes = lastSample latitudes' →
        (ensure_orientation latitudes values).2.2 =
          (ensure_orientation latitudes' values).2.2) := by
  refine ⟨?_, ?_, ?_, ?_⟩
  · intro latitudes values a b h1 h2
    simp [ensure_orientation, h1, h2]
  · intro x values
    simp [ensure_orientation, firstSample, lastSample]
  · intro row values
    cases row <;>
      simp [ensure_orientation, firstSample, lastSample]
  · intro latitudes latitudes' values h1 h2
    unfold ensure_orientation
    rw [← h1, ← h2]
    rcases firstSample latitudes with _ | a <;>
      rcases lastSample latitudes with _ | b <;> simp
    split_ifs <;> rfl

/-- Witness for C5: a two-sample increasing axis flips. -/
theorem orientation_decision_witness :
    ensure_orientation (Axis.oneD [1, 2]) [] =
      (flipudAxis (Axis.oneD [1, 2]), flipud [], true) := by
  have h := orientation_decision.1 (Axis.oneD [1, 2]) [] 1 2 rfl rfl
  rwa [if_pos (by norm_num)] at h

/-- Claim C9: the vertical flip is self-inverse, and the orientation
normaliser's output is one of its fixed points: re-running it performs no
further flip. -/
theorem orientation_idempotent :
    (∀ values : Grid, flipud (flipud values) = values)
    ∧ (∀ a : Axis, flipudAxis (flipudAxis a) = a)
    ∧ (∀ (latitudes latitudes' : Axis) (values values' : Grid) (f : Bool),
        ensure_orientation latitudes values = (latitudes', values', f) →
        ensure_orientation latitudes' values' = (latitudes', values', false)) := by
  refine ⟨fun values => List.reverse_reverse values, ?_, ?_⟩
  · intro a
    cases a <;> simp [flipudAxis, flipud]
  · intro latitudes latitudes' values values' f h
    rcases h1 : firstSample latitudes with _ | a <;>
      rcases h2 : lastSample latitudes with _ | b <;>
        simp [ensure_orientation, h1, h2] at h
    · obtain ⟨rfl, rfl, -⟩ := h
      simp [ensure_orientation, h1, h2]
    · obtain ⟨rfl, rfl, -⟩ := h
      simp [ensure_orientation, h1, h2]
    · obtain ⟨rfl, rfl, -⟩ := h
      simp [ensure_orientation, h1, h2]
    · by_cases hab : a < b
      · rw [if_pos hab] at h
        obtain ⟨rfl, rfl, -⟩ := h
        have hf : firstSample (flipudAxis latitudes) = some b := by
          rw [firstSample_flipudAxis, h2]
        have hl : lastSample (flipudAxis latitudes) = some a := by
          rw [lastSample_flipudAxis, h1]
        simp [ensure_orientation, hf, hl, not_lt.mpr (le_of_lt hab)]
      · rw [if_neg hab] at h
        obtain ⟨rfl, rfl, -⟩ := h
        simp [ensure_orientation, h1, h2, hab]

/-- Witness for C9's fixed-point part at a concrete axis. -/
theorem orientation_idempotent_witness :
    ensure_orientation (Axis.oneD [5]) [] = (Axis.oneD [5], [], false) :=
  orientation_idempotent.2.2 (Axis.oneD [5]) (Axis.oneD [5]) [] [] false
    (by norm_num [ensure_orientation, firstSample, lastSample])

theorem axisValues_wrap_longitudes (a : Axis) :
    axisValues (wrap_longitudes a) = (axisValues a).map wrapLon := by
  cases a with
  | oneD l => rfl
  | twoD g =>
    simp [axisValues, wrap_longitudes, List.map_flatten]

/-- Counterexample to C2: the longitude normaliser leaves `180.0` at `180.0`,
which is outside the half-open interval `[-180, 180)`, and leaves `-200.0` at
`-200.0`, which is below `-180`. -/
theorem wrap_longitudes_cex :
    (180 : ℚ) ∈ axisValues (wrap_longitudes (Axis.oneD [180, -200]))
    ∧ ¬ ((-180 : ℚ) ≤ 180 ∧ (180 : ℚ) < 180)
    ∧ (-200 : ℚ) ∈ axisValues (wrap_longitudes (Axis.oneD [180, -200]))
    ∧ ¬ ((-180 : ℚ) ≤ -200 ∧ (-200 : ℚ) < 180) := by
  norm_num [axisValues, wrap_longitudes, wrapLon]

/-- Claim C2 as amended: for a numeric longitude axis whose values lie in the
conventional `[0, 360]` input domain, every output value of the longitude
normaliser (and hence every derived west/east bound) lies in the closed
interval `[-180, 180]`. -/
theorem wrap_longitudes_range (a : Axis)
    (h : ∀ u ∈ axisValues a, 0 ≤ u ∧ u ≤ 360) :
    ∀ v ∈ axisValues (wrap_longitudes a), -180 ≤ v ∧ v ≤ 180 := by
  intro v hv
  rw [axisValues_wrap_longitudes] at hv
  obtain ⟨u, hu, rfl⟩ := List.mem_map.mp hv
  obtain ⟨hu0, hu360⟩ := h u hu
  unfold wrapLon
  split_ifs with hgt
  · constructor <;> linarith
  · constructor <;> linarith

/-- Witness for the amended C2 at a concrete axis. -/
theorem wrap_longitudes_range_witness :
    (-180 : ℚ) ≤ -170 ∧ (-170 : ℚ) ≤ 180 :=
  wrap_longitudes_range (Axis.oneD [190])
    (by norm_num [axisValues]) (-170)
    (by norm_num [axisValues, wrap_longitudes, wrapLon])

theorem getSample_map {α β : Type} (f : α → β) (g : List (List α)) (i j : ℕ) :
    getSample (g.map (List.map f)) i j = (getSample g i j).map f := by
  unfold getSample
  rw [List.getElem?_map]
  cases g[i]? with
  | none => rfl
  | some row => simp [List.getElem?_map]

/-- Claim C4: a sample equal to the declared missing value, or `≤ -100`,
becomes "no data" after value normalisation, and its raw value in the scaled
int16 grid is the missing sentinel `-32768`. -/
theorem missing_propagation (g : Grid) (missing_value : Option ℚ)
    (i j : ℕ) (v : ℚ)
    (hv : getSample g i j = some (some v))
    (hm : missing_value = some v ∨ v ≤ -100) :
    getSample (normalise_values g missing_value) i j = some none
    ∧ getSample (scaledGrid (normalise_values g missing_value)) i j =
        some missingSentinel := by
  have hnorm : normaliseSample missing_value (some v) = none := by
    rcases hm with rfl | hle
    · simp [normaliseSample]
    · rcases missing_value with _ | m
      · simp [normaliseSample, hle]
      · by_cases hvm : v = m <;> simp [normaliseSample, hvm, hle]
  have h1 : getSample (normalise_values g missing_value) i j = some none := by
    rw [normalise_values, getSample_map, hv]
    simp [hnorm]
  refine ⟨h1, ?_⟩
  rw [scaledGrid, getSample_map, h1]
  rfl

/-- Witness for C4 at a concrete grid. -/
theorem missing_propagation_witness :
    getSample (normalise_values [[some (-9999 : ℚ)]] (some (-9999))) 0 0 =
      some none
    ∧ getSample
        (scaledGrid (normalise_values [[some (-9999 : ℚ)]] (some (-9999))))
        0 0 = some missingSentinel :=
  missing_propagation [[some (-9999)]] (some (-9999)) 0 0 (-9999) rfl
    (Or.inl rfl)

/-- Counterexample to C1: `v = -3276.76` is finite with `|v| < 3276.8`, yet
`rint (v * 10) = -32768` collides with the missing sentinel, so the decoded
value is "no data" rather than within `0.05` of `v`. -/
theorem quantization_cex :
    |(-81919 / 25 : ℚ)| < 16384 / 5
    ∧ encodeSample (some (-81919 / 25)) = missingSentinel
    ∧ decodeSample (encodeSample (some (-81919 / 25))) = none := by
  have hfl : ⌊(-81919 / 25 * 10 : ℚ)⌋ = -32768 := by norm_num
  have henc : encodeSample (some (-81919 / 25)) = missingSentinel := by
    show toInt16 (rint (-81919 / 25 * 10)) = missingSentinel
    rw [rint, hfl]
    norm_num [toInt16, missingSentinel]
  refine ⟨by rw [abs_lt]; constructor <;> norm_num, henc, ?_⟩
  rw [henc]
  rfl

/-- Claim C1 as amended: for every finite `v` with `|v| < 3276.75` the decoded
value exists (the raw value cannot collide with the missing sentinel) and
differs from `v` by at most `0.05`; every "no data" sample encodes to the raw
sentinel `-32768` and decodes back to "no data". -/
theorem quantization_round_trip :
    (∀ v : ℚ, |v| < 13107 / 4 →
      ∃ w, decodeSample (encodeSample (some v)) = some w ∧ |w - v| ≤ 1 / 20)
    ∧ encodeSample none = missingSentinel
    ∧ decodeSample missingSentinel = none := by
  refine ⟨?_, rfl, rfl⟩
  intro v hv
  obtain ⟨hv1, hv2⟩ := abs_lt.mp hv
  obtain ⟨hr1, hr2⟩ := abs_le.mp (rint_sub_abs_le (v * 10))
  set r := rint (v * 10) with hrdef
  have hub : (r : ℚ) < 32768 := by linarith
  have hlb : (-32768 : ℚ) < (r : ℚ) := by linarith
  have hub' : r ≤ 32767 := by exact_mod_cast Int.lt_add_one_iff.mp (by exact_mod_cast hub)
  have hlb' : -32767 ≤ r := by
    have : (-32768 : ℤ) < r := by exact_mod_cast hlb
    omega
  have henc : encodeSample (some v) = r := by
    show toInt16 (rint (v * 10)) = r
    rw [← hrdef]
    exact toInt16_eq_self (by omega) (by omega)
  have hne : ¬ r = gridEncoding.missing := by
    show ¬ r = (-32768 : ℤ)
    omega
  refine ⟨(r : ℚ) * (1 / 10) + 0, ?_, ?_⟩
  · rw [henc, decodeSample, if_neg hne]
    rfl
  · rw [abs_le]
    constructor <;> linarith

/-- Witness for the amended C1 at `v = 3/2`. -/
theorem quantization_round_trip_witness :
    ∃ w, decodeSample (encodeSample (some (3 / 2 : ℚ))) = some w
      ∧ |w - 3 / 2| ≤ 1 / 20 :=
  quantization_round_trip.1 (3 / 2) (by rw [abs_lt]; constructor <;> norm_num)

/-- Claim C8: a dataset declaring zero data variables fails the run with the
no-data-variable error before any payload is produced. -/
theorem no_data_variable (ds : Dataset) (h : ds.data_vars = []) :
    process_grib ds = .error .noDataVariable ∧ emittedPayload ds = none := by
  have h1 : process_grib ds = .error .noDataVariable := by
    unfold process_grib
    rw [h]
  refine ⟨h1, ?_⟩
  unfold emittedPayload
  rw [h1]
  rfl

/-- Witness for C8 at a concrete empty dataset. -/
theorem no_data_variable_witness :
    process_grib emptyDataset = .error .noDataVariable
    ∧ emittedPayload emptyDataset = none :=
  no_data_variable emptyDataset rfl

theorem decB64Char_encB64Char :
    ∀ n : ℕ, n < 64 → decB64Char (encB64Char n) = some n := by decide

theorem encB64Char_ne_pad : ∀ n : ℕ, n < 64 → encB64Char n ≠ '=' := by decide

theorem decodeB64_encodeB64 :
    ∀ l : List ℕ, (∀ b ∈ l, b < 256) → decodeB64 (encodeB64 l) = some l
  | [] => fun _ => rfl
  | [a] => fun h => by
    have ha : a < 256 := h a (by simp)
    have h1 : decB64Char (encB64Char (a / 4)) = some (a / 4) :=
      decB64Char_encB64Char _ (by omega)
    have h2 : decB64Char (encB64Char (a % 4 * 16)) = some (a % 4 * 16) :=
      decB64Char_encB64Char _ (by omega)
    simp [encodeB64, decodeB64, h1, h2]
    omega
  | [a, b] => fun h => by
    have ha : a < 256 := h a (by simp)
    have hb : b < 256 := h b (by simp)
    have hy : encB64Char (b % 16 * 4) ≠ '=' := encB64Char_ne_pad _ (by omega)
    have h1 : decB64Char (encB64Char (a / 4)) = some (a / 4) :=
      decB64Char_encB64Char _ (by omega)
    have h2 : decB64Char (encB64Char (a % 4 * 16 + b / 16)) =
        some (a % 4 * 16 + b / 16) := decB64Char_encB64Char _ (by omega)
    have h3 : decB64Char (encB64Char (b % 16 * 4)) = some (b % 16 * 4) :=
      decB64Char_encB64Char _ (by omega)
    simp [encodeB64, decodeB64, hy, h1, h2, h3]
    constructor <;> omega
  | a :: b :: c :: rest => fun h => by
    have ha : a < 256 := h a (by simp)
    have hb : b < 256 := h b (by simp)
    have hc : c < 256 := h c (by simp)
    have hrest : ∀ x ∈ rest, x < 256 := fun x hx => h x (by simp [hx])
    have hy : encB64Char (b % 16 * 4 + c / 64) ≠ '=' :=
      encB64Char_ne_pad _ (by omega)
    have hz : encB64Char (c % 64) ≠ '=' := encB64Char_ne_pad _ (by omega)
    have h1 : decB64Char (encB64Char (a / 4)) = some (a / 4) :=
      decB64Char_encB64Char _ (by omega)
    have h2 : decB64Char (encB64Char (a % 4 * 16 + b / 16)) =
        some (a % 4 * 16 + b / 16) := decB64Char_encB64Char _ (by omega)
    have h3 : decB64Char (encB64Char (b % 16 * 4 + c / 64)) =
        some (b % 16 * 4 + c / 64) := decB64Char_encB64Char _ (by omega)
    have h4 : decB64Char (encB64Char (c % 64)) = some (c % 64) :=
      decB64Char_encB64Char _ (by omega)
    have ih := decodeB64_encodeB64 rest hrest
    simp [encodeB64, decodeB64, hy, hz, h1, h2, h3, h4, ih]
    refine ⟨by omega, by omega, by omega⟩

theorem length_flatMap_int16 (l : List ℤ) :
    (l.flatMap int16ToBytes).length = 2 * l.length := by
  induction l with
  | nil => rfl
  | cons a t ih =>
    simp only [List.flatMap_cons, List.length_append, ih, int16ToBytes,
      List.length_cons, List.length_nil]
    omega

theorem mem_gridBytes_lt (s : List (List ℤ)) :
    ∀ b ∈ gridBytes s, b < 256 := by
  intro b hb
  unfold gridBytes at hb
  obtain ⟨n, -, hn⟩ := List.mem_flatMap.mp hb
  simp only [int16ToBytes, List.mem_cons, List.not_mem_nil, or_false] at hn
  have h0 : 0 ≤ n % 65536 := Int.emod_nonneg n (by norm_num)
  have h1 : n % 65536 < 65536 := Int.emod_lt_of_pos n (by norm_num)
  have h2 : (n % 65536).toNat < 65536 := by omega
  rcases hn with rfl | rfl
  · omega
  · omega

theorem flatten_length_rect {α : Type} (l : List (List α)) (c : ℕ)
    (h : ∀ r ∈ l, r.length = c) : l.flatten.length = l.length * c := by
  induction l with
  | nil => simp
  | cons r t ih =>
    simp only [List.flatten_cons, List.length_append, List.length_cons,
      h r (List.mem_cons_self r t), ih fun x hx => h x (List.mem_cons_of_mem r hx)]
    ring

theorem process_grib_ok (ds : Dataset) (v : Variable) (rest : List Variable)
    (hdv : ds.data_vars = v :: rest) (p : Payload)
    (h : process_grib ds = .ok p) :
    ∃ south west north east,
      extract_bounds (ensure_orientation ds.latitude v.values).1
          (orientedLongitudes ds v) = some (south, west, north, east)
      ∧ p =
        { rows := (normalisedGrid ds).length
          cols := ((normalisedGrid ds).headD []).length
          bounds := (south, west, north, east)
          latStep :=
            (extract_resolution (ensure_orientation ds.latitude v.values).1
              (orientedLongitudes ds v)).1
          lonStep :=
            (extract_resolution (ensure_orientation ds.latitude v.values).1
              (orientedLongitudes ds v)).2
          timestamp := ds.time
          minValue := nanMin (normalisedGrid ds)
          maxValue := nanMax (normalisedGrid ds)
          origin := "upper-left"
          dataEncoding := gridEncoding
          data := encodeB64 (gridBytes (scaledGrid (normalisedGrid ds))) } := by
  have hng : normalisedGrid ds =
      normalise_values (ensure_orientation ds.latitude v.values).2.1
        (detect_missing_value v) := by
    unfold normalisedGrid
    rw [hdv]
  have hLdef : (if (ensure_orientation ds.latitude v.values).2.2
      then flipudAxis (wrap_longitudes ds.longitude)
      else wrap_longitudes ds.longitude) = orientedLongitudes ds v := rfl
  unfold process_grib at h
  rw [hdv] at h
  dsimp only [encode_values] at h
  rw [hLdef, ← hng] at h
  cases hb : extract_bounds (ensure_orientation ds.latitude v.values).1
      (orientedLongitudes ds v) with
  | none =>
    rw [hb] at h
    exact Except.noConfusion h
  | some q =>
    obtain ⟨south, west, north, east⟩ := q
    rw [hb] at h
    dsimp only at h
    injection h with h'
    exact ⟨south, west, north, east, rfl, h'.symm⟩

theorem foldl_min_spec (x : ℚ) (xs : List ℚ) :
    xs.foldl min x ∈ x :: xs ∧ ∀ y ∈ x :: xs, xs.foldl min x ≤ y := by
  induction xs generalizing x with
  | nil => simp
  | cons a t ih =>
    obtain ⟨ihm, ihle⟩ := ih (min x a)
    simp only [List.foldl_cons]
    constructor
    · rcases List.mem_cons.mp ihm with hm | hm
      · rcases min_choice x a with hc | hc
        · rw [hm, hc]
          exact List.mem_cons_self x _
        · rw [hm, hc]
          exact List.mem_cons_of_mem x (List.mem_cons_self a t)
      · exact List.mem_cons_of_mem x (List.mem_cons_of_mem a hm)
    · intro y hy
      rcases List.mem_cons.mp hy with rfl | hy'
      · exact le_trans (ihle (min y a) (List.mem_cons_self _ _)) (min_le_left y a)
      · rcases List.mem_cons.mp hy' with rfl | hy''
        · exact le_trans (ihle (min x y) (List.mem_cons_self _ _)) (min_le_right x y)
        · exact ihle y (List.mem_cons_of_mem _ hy'')

theorem foldl_max_spec (x : ℚ) (xs : List ℚ) :
    xs.foldl max x ∈ x :: xs ∧ ∀ y ∈ x :: xs, y ≤ xs.foldl max x := by
  induction xs generalizing x with
  | nil => simp
  | cons a t ih =>
    obtain ⟨ihm, ihle⟩ := ih (max x a)
    simp only [List.foldl_cons]
    constructor
    · rcases List.mem_cons.mp ihm with hm | hm
      · rcases max_choice x a with hc | hc
        · rw [hm, hc]
          exact List.mem_cons_self x _
        · rw [hm, hc]
          exact List.mem_cons_of_mem x (List.mem_cons_self a t)
      · exact List.mem_cons_of_mem x (List.mem_cons_of_mem a hm)
    · intro y hy
      rcases List.mem_cons.mp hy with rfl | hy'
      · exact le_trans (le_max_left y a) (ihle (max y a) (List.mem_cons_self _ _))
      · rcases List.mem_cons.mp hy' with rfl | hy''
        · exact le_trans (le_max_right x y) (ihle (max x y) (List.mem_cons_self _ _))
        · exact ihle y (List.mem_cons_of_mem _ hy'')

theorem nanMin_spec (g : Grid) :
    (nanMin g = none ↔ dataSamples g = [])
    ∧ ∀ m, nanMin g = some m → m ∈ dataSamples g ∧ ∀ x ∈ dataSamples g, m ≤ x := by
  unfold nanMin
  rcases hd : dataSamples g with _ | ⟨x, xs⟩
  · simp
  · refine ⟨by simp, ?_⟩
    intro m hm
    obtain ⟨hmem, hle⟩ := foldl_min_spec x xs
    injection hm with hm'
    subst hm'
    exact ⟨hmem, hle⟩

theorem nanMax_spec (g : Grid) :
    (nanMax g = none ↔ dataSamples g = [])
    ∧ ∀ m, nanMax g = some m → m ∈ dataSamples g ∧ ∀ x ∈ dataSamples g, x ≤ m := by
  unfold nanMax
  rcases hd : dataSamples g with _ | ⟨x, xs⟩
  · simp
  · refine ⟨by simp, ?_⟩
    intro m hm
    obtain ⟨hmem, hle⟩ := foldl_max_spec x xs
    injection hm with hm'
    subst hm'
    exact ⟨hmem, hle⟩

theorem process_grib_sample :
    process_grib sampleDataset = .ok samplePayload := by
  norm_num [process_grib, sampleDataset, samplePayload, ensure_orientation,
    firstSample, lastSample, wrap_longitudes, wrapLon, normalise_values,
    normaliseSample, detect_missing_value, extract_bounds, firstLonSample,
    lastLonSample, extract_resolution, latVector, lonVector, compute_step,
    nanMin, nanMax, dataSamples, List.filterMap, encode_values, gridBytes,
    scaledGrid, encodeSample, rint, toInt16, int16ToBytes, encodeB64,
    encB64Char, b64Alphabet, missingSentinel, gridEncoding, flipudAxis,
    flipud]
  decide

/-- Claim C6: the payload's `minValue`/`maxValue` are the minimum/maximum over
the non-"no data" samples of the normalised grid, and are absent exactly when
that grid has no such sample. -/
theorem payload_minmax (ds : Dataset) (p : Payload)
    (h : process_grib ds = .ok p) :
    (p.minValue = none ↔ dataSamples (normalisedGrid ds) = [])
    ∧ (∀ m, p.minValue = some m → m ∈ dataSamples (normalisedGrid ds)
        ∧ ∀ x ∈ dataSamples (normalisedGrid ds), m ≤ x)
    ∧ (p.maxValue = none ↔ dataSamples (normalisedGrid ds) = [])
    ∧ (∀ m, p.maxValue = some m → m ∈ dataSamples (normalisedGrid ds)
        ∧ ∀ x ∈ dataSamples (normalisedGrid ds), x ≤ m) := by
  rcases hdv : ds.data_vars with _ | ⟨v, rest⟩
  · exfalso
    unfold process_grib at h
    rw [hdv] at h
    exact Except.noConfusion h
  · obtain ⟨s, w, n, e, -, rfl⟩ := process_grib_ok ds v rest hdv p h
    have h1 := nanMin_spec (normalisedGrid ds)
    have h2 := nanMax_spec (normalisedGrid ds)
    exact ⟨h1.1, h1.2, h2.1, h2.2⟩

/-- Witness for C6 at a concrete dataset. -/
theorem payload_minmax_witness :
    (samplePayload.minValue = none ↔
      dataSamples (normalisedGrid sampleDataset) = [])
    ∧ (∀ m, samplePayload.minValue = some m →
        m ∈ dataSamples (normalisedGrid sampleDataset)
        ∧ ∀ x ∈ dataSamples (normalisedGrid sampleDataset), m ≤ x)
    ∧ (samplePayload.maxValue = none ↔
        dataSamples (normalisedGrid sampleDataset) = [])
    ∧ (∀ m, samplePayload.maxValue = some m →
        m ∈ dataSamples (normalisedGrid sampleDataset)
        ∧ ∀ x ∈ dataSamples (normalisedGrid sampleDataset), x ≤ m) :=
  payload_minmax sampleDataset samplePayload process_grib_sample

theorem ensure_orientation_values (lat : Axis) (g : Grid) :
    (ensure_orientation lat g).2.1 = g
    ∨ (ensure_orientation lat g).2.1 = flipud g := by
  rcases h1 : firstSample lat with _ | a <;>
    rcases h2 : lastSample lat with _ | b <;>
      simp [ensure_orientation, h1, h2]
  by_cases hab : a < b
  · right
    rw [if_pos hab]
  · left
    rw [if_neg hab]

theorem normalisedGrid_shape (ds : Dataset) (v : Variable)
    (rest : List Variable) (hdv : ds.data_vars = v :: rest) :
    (normalisedGrid ds).length = v.values.length
    ∧ ∀ row ∈ normalisedGrid ds, ∃ row0 ∈ v.values,
        row.length = row0.length := by
  have hng : normalisedGrid ds =
      normalise_values (ensure_orientation ds.latitude v.values).2.1
        (detect_missing_value v) := by
    unfold normalisedGrid
    rw [hdv]
  rcases ensure_orientation_values ds.latitude v.values with hE | hE
  · rw [hng, hE]
    refine ⟨by simp [normalise_values], ?_⟩
    intro row hr
    simp only [normalise_values] at hr
    obtain ⟨row0, hr0, rfl⟩ := List.mem_map.mp hr
    exact ⟨row0, hr0, by simp⟩
  · rw [hng, hE]
    refine ⟨by simp [normalise_values, flipud], ?_⟩
    intro row hr
    simp only [normalise_values, flipud] at hr
    obtain ⟨row0, hr0, rfl⟩ := List.mem_map.mp hr
    exact ⟨row0, List.mem_reverse.mp hr0, by simp⟩

/-- Claim C10: the payload's `data` is valid base64 decoding to exactly
`2 * rows * cols` bytes — one 16-bit integer per cell — and `rows`/`cols`
equal the variable grid's shape. -/
theorem encoded_buffer_size (ds : Dataset) (v : Variable)
    (rest : List Variable) (p : Payload)
    (hdv : ds.data_vars = v :: rest)
    (hrect : ∀ row ∈ v.values, row.length = (v.values.headD []).length)
    (h : process_grib ds = .ok p) :
    ∃ bytes, decodeB64 p.data = some bytes
      ∧ bytes.length = 2 * p.rows * p.cols
      ∧ p.rows = v.values.length
      ∧ p.cols = (v.values.headD []).length := by
  obtain ⟨s, w, n, e, -, rfl⟩ := process_grib_ok ds v rest hdv p h
  obtain ⟨hlen, hshape⟩ := normalisedGrid_shape ds v rest hdv
  have hrows : ∀ row ∈ normalisedGrid ds,
      row.length = (v.values.headD []).length := by
    intro row hr
    obtain ⟨row0, hr0, hl⟩ := hshape row hr
    rw [hl]
    exact hrect row0 hr0
  have hcols : ((normalisedGrid ds).headD []).length =
      (v.values.headD []).length := by
    rcases hng : normalisedGrid ds with _ | ⟨r, t⟩
    · have h0 : v.values.length = 0 := by
        rw [← hlen, hng]
        rfl
      rw [List.length_eq_zero.mp h0]
    · exact hrows r (hng ▸ List.mem_cons_self r t)
  have hscaledRows : ∀ row ∈ scaledGrid (normalisedGrid ds),
      row.length = (v.values.headD []).length := by
    intro row hr
    simp only [scaledGrid] at hr
    obtain ⟨row0, hr0, rfl⟩ := List.mem_map.mp hr
    rw [List.length_map]
    exact hrows row0 hr0
  refine ⟨gridBytes (scaledGrid (normalisedGrid ds)),
    decodeB64_encodeB64 _ (mem_gridBytes_lt _), ?_, hlen, hcols⟩
  show (gridBytes (scaledGrid (normalisedGrid ds))).length =
    2 * (normalisedGrid ds).length * ((normalisedGrid ds).headD []).length
  unfold gridBytes
  rw [length_flatMap_int16,
    flatten_length_rect (scaledGrid (normalisedGrid ds))
      ((v.values.headD []).length) hscaledRows]
  have : (scaledGrid (normalisedGrid ds)).length = (normalisedGrid ds).length := by
    simp [scaledGrid]
  rw [this, hcols, Nat.mul_assoc]

/-- Witness for C10 at a concrete dataset. -/
theorem encoded_buffer_size_witness :
    ∃ bytes, decodeB64 samplePayload.data = some bytes
      ∧ bytes.length = 2 * samplePayload.rows * samplePayload.cols
      ∧ samplePayload.rows = [[some (1 : ℚ)]].length
      ∧ samplePayload.cols = ([[some (1 : ℚ)]].headD []).length :=
  encoded_buffer_size sampleDataset
    { values := [[some 1]], missing_value := none, fillValue := none }
    [] samplePayload rfl (by decide) process_grib_sample

end GribProcessor
